import Mathlib

/-!
Shallow embedding of the selective remote-ZIP extraction subsystem of
cj123/go-ipsw: the functions `bufferedDownload` and `DownloadFile` of the
`ipsw` package, together with interface models of their external
collaborators (`net/url.Parse`, the `ranger` range reader, `archive/zip`
directory parsing and entry decompression, `io.Copy`).

Bytes are modelled as natural numbers, byte sequences as `List Nat`.
External collaborator behaviour that is not part of this repository's
source is captured by a `World` record of parameters, faithful to the
spec's description of each collaborator at its interface boundary.
-/

namespace GoIpsw

/-- A byte sequence; each element is intended to be a byte value. -/
abbrev Bytes := List Nat

/-- Error values surfaced by the subsystem. `notFound` is the only error
constructed by `DownloadFile` itself (the Go source builds it with
`fmt.Errorf("pwn: file '%s' not found in resource '%s'", file, resource)`,
so it records both the entry name and the resource string); every other
constructor models an error produced by a collaborator and returned
verbatim by the source. -/
inductive GoError where
  /-- error from `net/url.Parse`, recording the offending resource string -/
  | urlParse (resource : String) : GoError
  /-- Modelled from the spec: `ranger.NewReader` fails when the server answers
  a ranged request with a non-partial-content status, recording that status. -/
  | rangeUnsupported (status : Nat) : GoError
  /-- error from `zip.NewReader`: malformed or truncated central directory -/
  | zipParse (msg : String) : GoError
  /-- error from `zip.File.Open` for a compression method outside Store/Deflate -/
  | unsupportedCompression (method : Nat) : GoError
  /-- read-side error from the flate decompressor on a corrupt stream -/
  | inflateCorrupt (msg : String) : GoError
  /-- write-side error from the caller-supplied sink -/
  | shortWrite : GoError
  /-- the `fmt.Errorf` in `DownloadFile`: entry name absent from the archive -/
  | notFound (file resource : String) : GoError
  deriving DecidableEq

/-- ZIP compression method number for Store, per the ZIP format. -/
def methodStore : Nat := 0

/-- ZIP compression method number for Deflate, per the ZIP format. -/
def methodDeflate : Nat := 8

/-- One entry of the archive directory, as materialized by `zip.NewReader`
(the fields of the spec's CentralDirectoryEntry that the extraction uses):
stored name, compression method, local-header offset, compressed payload. -/
structure ZipFile where
  name : String
  method : Nat
  localHeaderOffset : Nat
  compressedData : Bytes
  deriving DecidableEq

/-- The observable steps `DownloadFile` performs, in order, used to state
ordering and no-retry properties. -/
inductive Step where
  | parseURL : Step
  | rangeProbe : Step
  | readDirectory : Step
  | openEntry (name : String) : Step
  | copyData : Step
  deriving DecidableEq

/-- Behaviour of the external collaborators, fixed for one extraction.
Fields that model code not in this repository carry doc strings saying so. -/
structure World where
  /-- `net/url.Parse` at its interface: `none` means the resource string
  parses, `some e` the parse error returned. -/
  urlParse : String → Option GoError
  /-- Modelled from the spec: whether the server honors range requests
  (answers a ranged request with partial content). -/
  rangeSupported : Bool
  /-- the HTTP status the server answers a ranged request with when it does
  not honor it (e.g. 200) -/
  respStatus : Nat
  /-- total length of the remote archive in bytes -/
  totalLength : Nat
  /-- byte offset of the central directory inside the archive -/
  cdOffset : Nat
  /-- byte size of the central directory -/
  cdSize : Nat
  /-- bytes read to resolve one local file header -/
  localHeaderSize : Nat
  /-- `zip.NewReader` at its interface: either the ordered directory listing
  or a malformed-archive error. -/
  directory : Except GoError (List ZipFile)
  /-- the flate decompressor at its interface: the bytes it produces before
  succeeding or failing, and the error if the stream is corrupt -/
  inflate : Bytes → Bytes × Option GoError
  /-- write capacity of the caller-supplied sink: `none` never fails,
  `some c` fails after accepting `c` bytes -/
  sinkCap : Option Nat

/-- Result of one `DownloadFile` call: the Go return value (`none` =
success), the bytes written to the sink in order, the steps performed, and
the byte ranges (offset, length) fetched over HTTP. -/
structure DLResult where
  ret : Option GoError
  sink : Bytes
  trace : List Step
  reads : List (Nat × Nat)
  deriving DecidableEq

/-- Modelled from the spec: size of the tail probe that locates the
end-of-central-directory record — the 22-byte record plus the maximum
65535-byte comment, clamped to the archive length. -/
def eocdProbe (totalLength : Nat) : Nat := min 65557 totalLength

/-- `io.Copy` from an in-memory source to the sink: copies everything when
the sink capacity allows, otherwise writes a truncated prefix and fails
with a write error; a read-side error is surfaced after all produced bytes
were copied. Returns (bytes written, error). -/
def ioCopy (cap : Option Nat) (src : Bytes) (readErr : Option GoError) :
    Bytes × Option GoError :=
  match cap with
  | none => (src, readErr)
  | some c =>
      if src.length ≤ c then (src, readErr)
      else (src.take c, some .shortWrite)

/-- `zip.File.Open` followed by draining the returned reader: Store passes
the payload through, Deflate runs the decompressor, any other method fails
with the unsupported-compression error before producing output. -/
def zipOpenRead (inflate : Bytes → Bytes × Option GoError) (f : ZipFile) :
    Except GoError (Bytes × Option GoError) :=
  if f.method = methodStore then .ok (f.compressedData, none)
  else if f.method = methodDeflate then .ok (inflate f.compressedData)
  else .error (.unsupportedCompression f.method)

/-- The source's `bufferedDownload`: open the entry, on failure return the
error having written nothing, otherwise `io.Copy` the decompressed stream
to the writer. Returns (bytes written, error). -/
def bufferedDownload (inflate : Bytes → Bytes × Option GoError)
    (cap : Option Nat) (f : ZipFile) : Bytes × Option GoError :=
  match zipOpenRead inflate f with
  | .error e => ([], some e)
  | .ok (src, readErr) => ioCopy cap src readErr

/-- The source's `for _, f := range zipReader.File { if f.Name == file ... }`
loop: first entry whose stored name equals the requested name exactly. -/
def findEntry (file : String) : List ZipFile → Option ZipFile
  | [] => none
  | f :: fs => if f.name = file then some f else findEntry file fs

/-- The source's `DownloadFile`: parse the URL, build the range reader,
parse the central directory, scan for the entry, extract it; each failure
returns immediately with that step's error. -/
def DownloadFile (w : World) (resource file : String) : DLResult :=
  match w.urlParse resource with
  | some e => ⟨some e, [], [.parseURL], []⟩
  | none =>
    if w.rangeSupported then
      let probe := eocdProbe w.totalLength
      let probeRead : Nat × Nat := (w.totalLength - probe, probe)
      match w.directory with
      | .error e =>
          ⟨some e, [], [.parseURL, .rangeProbe, .readDirectory],
           [probeRead, (w.cdOffset, w.cdSize)]⟩
      | .ok files =>
          match findEntry file files with
          | some f =>
              let res := bufferedDownload w.inflate w.sinkCap f
              ⟨res.2, res.1,
               [.parseURL, .rangeProbe, .readDirectory, .openEntry f.name,
                .copyData],
               [probeRead, (w.cdOffset, w.cdSize),
                (f.localHeaderOffset, w.localHeaderSize),
                (f.localHeaderOffset + w.localHeaderSize,
                 f.compressedData.length)]⟩
          | none =>
              ⟨some (.notFound file resource), [],
               [.parseURL, .rangeProbe, .readDirectory],
               [probeRead, (w.cdOffset, w.cdSize)]⟩
    else
      ⟨some (.rangeUnsupported w.respStatus), [], [.parseURL, .rangeProbe], []⟩

/-- The byte stream the decompressor yields for an entry (complete content
on success, the produced prefix when the stream is corrupt, nothing for an
unsupported method). -/
def entryStream (inflate : Bytes → Bytes × Option GoError) (f : ZipFile) :
    Bytes :=
  if f.method = methodStore then f.compressedData
  else if f.method = methodDeflate then (inflate f.compressedData).1
  else []

/-- Modelled from the spec: the content a full download of the archive
followed by a standard unzip of the named entry produces — the first entry
of that name, decompressed; `none` when the name is absent, the method
unsupported, or the payload corrupt (unzip fails). -/
def fullUnzip (inflate : Bytes → Bytes × Option GoError)
    (files : List ZipFile) (name : String) : Option Bytes :=
  match findEntry name files with
  | none => none
  | some f =>
      if f.method = methodStore then some f.compressedData
      else if f.method = methodDeflate then
        match inflate f.compressedData with
        | (out, none) => some out
        | (_, some _) => none
      else none

/-- The content the extraction is expected to deliver for a given world and
request: the decompressor's stream for the first matching entry when the
pipeline reaches it, the empty sequence otherwise. -/
def expectedContent (w : World) (resource file : String) : Bytes :=
  match w.urlParse resource with
  | some _ => []
  | none =>
      if w.rangeSupported then
        match w.directory with
        | .error _ => []
        | .ok files =>
            match findEntry file files with
            | none => []
            | some f => entryStream w.inflate f
      else []

/-- Total bytes fetched over HTTP during one call. -/
def transferred (res : DLResult) : Nat := (res.reads.map (·.2)).sum

/-! Helper lemmas shared by the claim theorems. -/

theorem findEntry_eq_none {file : String} {files : List ZipFile} :
    findEntry file files = none ↔ ∀ f ∈ files, f.name ≠ file := by
  induction files with
  | nil => simp [findEntry]
  | cons f fs ih =>
      by_cases h : f.name = file
      · simp [findEntry, h]
      · simp [findEntry, h, ih]

theorem findEntry_first {file : String} {pre post : List ZipFile}
    {f : ZipFile} (hf : f.name = file) (hpre : ∀ g ∈ pre, g.name ≠ file) :
    findEntry file (pre ++ f :: post) = some f := by
  induction pre with
  | nil => simp [findEntry, hf]
  | cons g gs ih =>
      have hg : g.name ≠ file := hpre g (by simp)
      simpa [findEntry, hg] using ih fun x hx => hpre x (by simp [hx])

theorem ioCopy_fst_pre (c : Option Nat) (src : Bytes) (re : Option GoError) :
    (ioCopy c src re).1 <+: src := by
  cases c with
  | none => exact List.prefix_refl _
  | some n =>
      by_cases h : src.length ≤ n
      · simp [ioCopy, h]
      · simpa [ioCopy, h] using List.take_prefix n src

theorem ioCopy_ok {c : Option Nat} {src : Bytes} {re : Option GoError}
    (h : (ioCopy c src re).2 = none) :
    (ioCopy c src re).1 = src ∧ re = none := by
  cases c with
  | none => exact ⟨rfl, h⟩
  | some n =>
      by_cases hl : src.length ≤ n
      · exact ⟨by simp [ioCopy, hl], by simpa [ioCopy, hl] using h⟩
      · exact absurd h (by simp [ioCopy, hl])

theorem bufferedDownload_fst_pre (i : Bytes → Bytes × Option GoError)
    (c : Option Nat) (f : ZipFile) :
    (bufferedDownload i c f).1 <+: entryStream i f := by
  unfold bufferedDownload zipOpenRead entryStream
  by_cases h0 : f.method = methodStore
  · simpa [h0] using ioCopy_fst_pre c f.compressedData none
  · by_cases h8 : f.method = methodDeflate
    · simpa [h0, h8] using
        ioCopy_fst_pre c (i f.compressedData).1 (i f.compressedData).2
    · simp [h0, h8]

theorem bufferedDownload_ok {i : Bytes → Bytes × Option GoError}
    {c : Option Nat} {f : ZipFile}
    (h : (bufferedDownload i c f).2 = none) :
    (bufferedDownload i c f).1 = entryStream i f ∧
      (f.method = methodStore ∨
        (f.method = methodDeflate ∧ (i f.compressedData).2 = none)) := by
  by_cases h0 : f.method = methodStore
  · have hb : bufferedDownload i c f = ioCopy c f.compressedData none := by
      simp [bufferedDownload, zipOpenRead, h0]
    rw [hb] at h ⊢
    exact ⟨by rw [(ioCopy_ok h).1]; simp [entryStream, h0], Or.inl h0⟩
  · by_cases h8 : f.method = methodDeflate
    · have hb : bufferedDownload i c f =
          ioCopy c (i f.compressedData).1 (i f.compressedData).2 := by
        simp [bufferedDownload, zipOpenRead, h0, h8, methodStore, methodDeflate]
      rw [hb] at h ⊢
      refine ⟨?_, Or.inr ⟨h8, (ioCopy_ok h).2⟩⟩
      rw [(ioCopy_ok h).1]
      simp [entryStream, h0, h8, methodStore, methodDeflate]
    · exact absurd h (by simp [bufferedDownload, zipOpenRead, h0, h8])

theorem findEntry_some {file : String} {files : List ZipFile} {f : ZipFile}
    (h : findEntry file files = some f) : f ∈ files ∧ f.name = file := by
  induction files with
  | nil => simp [findEntry] at h
  | cons g gs ih =>
      by_cases hg : g.name = file
      · simp [findEntry, hg] at h
        exact ⟨by simp [h], h ▸ hg⟩
      · simp only [findEntry, if_neg hg] at h
        obtain ⟨hm, hn⟩ := ih h
        exact ⟨by simp [hm], hn⟩

theorem downloadFile_ok_shape {w : World} {r file : String}
    (h : (DownloadFile w r file).ret = none) :
    w.urlParse r = none ∧ w.rangeSupported = true ∧
      ∃ files f, w.directory = .ok files ∧ findEntry file files = some f ∧
        (bufferedDownload w.inflate w.sinkCap f).2 = none ∧
        (DownloadFile w r file).sink = (bufferedDownload w.inflate w.sinkCap f).1 := by
  cases hp : w.urlParse r with
  | some e => simp [DownloadFile, hp] at h
  | none =>
    cases hr : w.rangeSupported with
    | false => simp [DownloadFile, hp, hr] at h
    | true =>
      cases hd : w.directory with
      | error e => simp [DownloadFile, hp, hr, hd] at h
      | ok files =>
        cases hf : findEntry file files with
        | none => simp [DownloadFile, hp, hr, hd, hf] at h
        | some f =>
            refine ⟨rfl, rfl, files, f, rfl, hf, ?_, ?_⟩
            · simpa [DownloadFile, hp, hr, hd, hf] using h
            · simp [DownloadFile, hp, hr, hd, hf]

/-! The claim theorems. -/

/-- C1: whenever `DownloadFile` succeeds, the bytes it wrote to the sink are
exactly what a full download of the archive followed by a standard unzip of
the same entry produces — same bytes, same order. -/
theorem downloadFile_refines_full_unzip (w : World) (r file : String)
    (files : List ZipFile) (hd : w.directory = .ok files)
    (h : (DownloadFile w r file).ret = none) :
    fullUnzip w.inflate files file = some (DownloadFile w r file).sink := by
  obtain ⟨hp, hr, files', f, hd', hf, hb, hs⟩ := downloadFile_ok_shape h
  rw [hd] at hd'
  injection hd' with hfe
  subst hfe
  obtain ⟨hsink, hmeth⟩ := bufferedDownload_ok hb
  rw [hs, hsink]
  unfold fullUnzip
  rw [hf]
  rcases hmeth with h0 | ⟨h8, hinf⟩
  · simp [entryStream, h0]
  · have h0 : ¬ f.method = methodStore := by
      simp [h8, methodDeflate, methodStore]
    cases hpe : w.inflate f.compressedData with
    | mk out err =>
        rw [hpe] at hinf
        simp only at hinf
        subst hinf
        simp [entryStream, h0, h8, hpe, methodStore, methodDeflate]

/-- C2: requesting a name that matches no stored entry name makes
`DownloadFile` return the entry-not-found error with nothing written to the
sink — never a zero-length success. -/
theorem downloadFile_not_found (w : World) (r file : String)
    (files : List ZipFile) (hp : w.urlParse r = none)
    (hr : w.rangeSupported = true) (hd : w.directory = .ok files)
    (habs : ∀ f ∈ files, f.name ≠ file) :
    (DownloadFile w r file).ret = some (.notFound file r) ∧
      (DownloadFile w r file).sink = [] := by
  have hf : findEntry file files = none := findEntry_eq_none.mpr habs
  simp [DownloadFile, hp, hr, hd, hf]

/-- C3: when the server does not honor range requests, `DownloadFile` fails
with the range-unsupported error carrying the HTTP status, before any ZIP
directory parsing and without transferring any archive bytes. -/
theorem downloadFile_range_unsupported (w : World) (r file : String)
    (hp : w.urlParse r = none) (hr : w.rangeSupported = false) :
    (DownloadFile w r file).ret = some (.rangeUnsupported w.respStatus) ∧
      Step.readDirectory ∉ (DownloadFile w r file).trace ∧
      (DownloadFile w r file).reads = [] ∧
      (DownloadFile w r file).sink = [] := by
  simp [DownloadFile, hp, hr]

/-- C10: when the resource string fails URL parsing, `DownloadFile` returns
the parse error having issued no HTTP request, fetched no byte range, and
written nothing to the sink. -/
theorem downloadFile_url_parse_error (w : World) (r file : String)
    (e : GoError) (hp : w.urlParse r = some e) :
    (DownloadFile w r file).ret = some e ∧
      (DownloadFile w r file).sink = [] ∧
      (DownloadFile w r file).reads = [] ∧
      (DownloadFile w r file).trace = [.parseURL] := by
  simp [DownloadFile, hp]

/-- C4: the sink always holds a prefix of the expected decompressed entry
content — never arbitrary other bytes — and `DownloadFile` returns without
error exactly when that content has been written in full. -/
theorem downloadFile_sink_atomic (w : World) (r file : String) :
    (DownloadFile w r file).sink <+: expectedContent w r file ∧
      ((DownloadFile w r file).ret = none →
        (DownloadFile w r file).sink = expectedContent w r file) := by
  cases hp : w.urlParse r with
  | some e => simp [DownloadFile, expectedContent, hp]
  | none =>
    cases hr : w.rangeSupported with
    | false => simp [DownloadFile, expectedContent, hp, hr]
    | true =>
      cases hd : w.directory with
      | error e => simp [DownloadFile, expectedContent, hp, hr, hd]
      | ok files =>
        cases hf : findEntry file files with
        | none => simp [DownloadFile, expectedContent, hp, hr, hd, hf]
        | some f =>
            constructor
            · simpa [DownloadFile, expectedContent, hp, hr, hd, hf] using
                bufferedDownload_fst_pre w.inflate w.sinkCap f
            · intro h
              have hb : (bufferedDownload w.inflate w.sinkCap f).2 = none := by
                simpa [DownloadFile, hp, hr, hd, hf] using h
              simpa [DownloadFile, expectedContent, hp, hr, hd, hf] using
                (bufferedDownload_ok hb).1

/-- C5: every step's failure is returned verbatim to the caller (URL parse
error, range probe failure with its HTTP status, directory parse error, the
extraction error, and the not-found error carrying the entry name and
resource), and no step is ever repeated inside the subsystem. -/
theorem downloadFile_error_propagation (w : World) (r file : String) :
    (∀ e, w.urlParse r = some e → (DownloadFile w r file).ret = some e) ∧
      (w.urlParse r = none → w.rangeSupported = false →
        (DownloadFile w r file).ret = some (.rangeUnsupported w.respStatus)) ∧
      (∀ e, w.urlParse r = none → w.rangeSupported = true →
        w.directory = .error e → (DownloadFile w r file).ret = some e) ∧
      (∀ files f, w.urlParse r = none → w.rangeSupported = true →
        w.directory = .ok files → findEntry file files = some f →
        (DownloadFile w r file).ret = (bufferedDownload w.inflate w.sinkCap f).2) ∧
      (∀ files, w.urlParse r = none → w.rangeSupported = true →
        w.directory = .ok files → findEntry file files = none →
        (DownloadFile w r file).ret = some (.notFound file r)) ∧
      (DownloadFile w r file).trace.Nodup := by
  refine ⟨?_, ?_, ?_, ?_, ?_, ?_⟩
  · intro e hp
    simp [DownloadFile, hp]
  · intro hp hr
    simp [DownloadFile, hp, hr]
  · intro e hp hr hd
    simp [DownloadFile, hp, hr, hd]
  · intro files f hp hr hd hf
    simp [DownloadFile, hp, hr, hd, hf]
  · intro files hp hr hd hf
    simp [DownloadFile, hp, hr, hd, hf]
  · cases hp : w.urlParse r with
    | some e => simp [DownloadFile, hp]
    | none =>
      cases hr : w.rangeSupported with
      | false => simp [DownloadFile, hp, hr]
      | true =>
        cases hd : w.directory with
        | error e => simp [DownloadFile, hp, hr, hd]
        | ok files =>
          cases hf : findEntry file files with
          | none => simp [DownloadFile, hp, hr, hd, hf]
          | some f => simp [DownloadFile, hp, hr, hd, hf]

/-- C6: the entry lookup is a case-sensitive exact string match — the scan
opens an entry for the requested name exactly when some stored entry name
equals it character for character. -/
theorem downloadFile_case_sensitive_lookup (w : World) (r file : String)
    (files : List ZipFile) (hp : w.urlParse r = none)
    (hr : w.rangeSupported = true) (hd : w.directory = .ok files) :
    Step.openEntry file ∈ (DownloadFile w r file).trace ↔
      ∃ f ∈ files, f.name = file := by
  cases hf : findEntry file files with
  | none =>
      have habs := findEntry_eq_none.mp hf
      constructor
      · intro h
        have ht : (DownloadFile w r file).trace =
            [.parseURL, .rangeProbe, .readDirectory] := by
          simp [DownloadFile, hp, hr, hd, hf]
        rw [ht] at h
        simp at h
      · rintro ⟨g, hm, hn⟩
        exact absurd hn (habs g hm)
  | some f =>
      obtain ⟨hmem, hname⟩ := findEntry_some hf
      have ht : (DownloadFile w r file).trace =
          [.parseURL, .rangeProbe, .readDirectory, .openEntry f.name,
           .copyData] := by
        simp [DownloadFile, hp, hr, hd, hf]
      rw [ht]
      constructor
      · intro _
        exact ⟨f, hmem, hname⟩
      · intro _
        simp [hname]

/-- C7: an entry whose compression method is neither Store nor Deflate makes
the extraction fail with the unsupported-compression error, with no
decompressed output emitted. -/
theorem bufferedDownload_unsupported_method
    (i : Bytes → Bytes × Option GoError) (c : Option Nat) (f : ZipFile)
    (h0 : f.method ≠ methodStore) (h8 : f.method ≠ methodDeflate) :
    bufferedDownload i c f = ([], some (.unsupportedCompression f.method)) := by
  simp [bufferedDownload, zipOpenRead, h0, h8]

/-- C8: the total bytes fetched over HTTP for one extraction are bounded by
the tail-probe size plus the central-directory size plus the local-header
probe size plus the compressed entry size — independent of the archive's
total length. -/
theorem downloadFile_transfer_bound (w : World) (r file : String)
    (files : List ZipFile) (f : ZipFile) (hp : w.urlParse r = none)
    (hr : w.rangeSupported = true) (hd : w.directory = .ok files)
    (hf : findEntry file files = some f) :
    transferred (DownloadFile w r file) ≤
      65557 + w.cdSize + w.localHeaderSize + f.compressedData.length := by
  simp [DownloadFile, transferred, hp, hr, hd, hf, eocdProbe]
  omega

/-- C9: with duplicate entry names, `DownloadFile` uses the first match in
central-directory order — the result is unchanged when everything after the
first matching entry is dropped, so no later entry is inspected. -/
theorem downloadFile_first_match (w : World) (r file : String)
    (pre post : List ZipFile) (f : ZipFile) (hf : f.name = file)
    (hpre : ∀ g ∈ pre, g.name ≠ file) :
    DownloadFile { w with directory := .ok (pre ++ f :: post) } r file =
      DownloadFile { w with directory := .ok (pre ++ [f]) } r file := by
  have h1 : findEntry file (pre ++ f :: post) = some f := findEntry_first hf hpre
  have h2 : findEntry file (pre ++ [f]) = some f :=
    @findEntry_first file pre [] f hf hpre
  cases hp : w.urlParse r with
  | some e => simp [DownloadFile, hp]
  | none =>
    cases hr : w.rangeSupported with
    | false => simp [DownloadFile, hp, hr]
    | true => simp [DownloadFile, hp, hr, h1, h2]

/-! Concrete data for the witness statements. -/

/-- A decompressor used by the concrete examples: passes the stream through
and never fails. -/
def idInflate : Bytes → Bytes × Option GoError := fun b => (b, none)

/-- Sample archive directory used by the concrete examples. -/
def sampleFiles : List ZipFile :=
  [⟨"Manifest.plist", methodStore, 100, [10, 20, 30]⟩,
   ⟨"data.bin", methodDeflate, 200, [1, 2]⟩]

/-- Sample world: range-supporting server and a well-formed archive. -/
def sampleWorld : World where
  urlParse := fun _ => none
  rangeSupported := true
  respStatus := 206
  totalLength := 100000
  cdOffset := 99000
  cdSize := 120
  localHeaderSize := 30
  directory := .ok sampleFiles
  inflate := idInflate
  sinkCap := none

/-- Sample world whose server answers ranged requests with status 200. -/
def noRangeWorld : World :=
  { sampleWorld with rangeSupported := false, respStatus := 200 }

/-- Sample world whose resource string fails URL parsing. -/
def badURLWorld : World :=
  { sampleWorld with urlParse := fun s => some (.urlParse s) }

/-- Entry compressed with LZMA (method 14), outside Store/Deflate. -/
def lzmaFile : ZipFile := ⟨"payload.bin", 14, 300, [5, 6, 7]⟩

/-- Two entries sharing one name, used by the C9 witness. -/
def dupA : ZipFile := ⟨"dup.txt", methodStore, 0, [1, 2]⟩

/-- The later of the two duplicate-name entries. -/
def dupB : ZipFile := ⟨"dup.txt", methodStore, 50, [9]⟩

/-! Witness statements, one per claim theorem with hypotheses. -/

/-- Witness for C1 at a concrete archive and entry. -/
theorem downloadFile_refines_full_unzip_witness :
    sampleWorld.directory = Except.ok sampleFiles ∧
      (DownloadFile sampleWorld "http://host/a.ipsw" "Manifest.plist").ret =
        none ∧
      fullUnzip sampleWorld.inflate sampleFiles "Manifest.plist" =
        some (DownloadFile sampleWorld "http://host/a.ipsw"
          "Manifest.plist").sink :=
  ⟨rfl, by decide,
   downloadFile_refines_full_unzip sampleWorld "http://host/a.ipsw"
     "Manifest.plist" sampleFiles rfl (by decide)⟩

/-- Witness for C2 at a name absent from the sample archive. -/
theorem downloadFile_not_found_witness :
    (∀ f ∈ sampleFiles, f.name ≠ "missing.txt") ∧
      (DownloadFile sampleWorld "http://host/a.ipsw" "missing.txt").ret =
        some (.notFound "missing.txt" "http://host/a.ipsw") ∧
      (DownloadFile sampleWorld "http://host/a.ipsw" "missing.txt").sink = [] :=
  ⟨by decide,
   (downloadFile_not_found sampleWorld "http://host/a.ipsw" "missing.txt"
      sampleFiles rfl rfl rfl (by decide)).1,
   (downloadFile_not_found sampleWorld "http://host/a.ipsw" "missing.txt"
      sampleFiles rfl rfl rfl (by decide)).2⟩

/-- Witness for C3 at a server answering 200 to ranged requests. -/
theorem downloadFile_range_unsupported_witness :
    noRangeWorld.rangeSupported = false ∧
      (DownloadFile noRangeWorld "http://host/a.ipsw" "Manifest.plist").ret =
        some (.rangeUnsupported 200) ∧
      Step.readDirectory ∉
        (DownloadFile noRangeWorld "http://host/a.ipsw"
          "Manifest.plist").trace :=
  ⟨rfl,
   (downloadFile_range_unsupported noRangeWorld "http://host/a.ipsw"
      "Manifest.plist" rfl rfl).1,
   (downloadFile_range_unsupported noRangeWorld "http://host/a.ipsw"
      "Manifest.plist" rfl rfl).2.1⟩

/-- Witness for C4 at a concrete world and entry. -/
theorem downloadFile_sink_atomic_witness :
    (DownloadFile sampleWorld "http://host/a.ipsw" "data.bin").sink <+:
        expectedContent sampleWorld "http://host/a.ipsw" "data.bin" ∧
      ((DownloadFile sampleWorld "http://host/a.ipsw" "data.bin").ret = none →
        (DownloadFile sampleWorld "http://host/a.ipsw" "data.bin").sink =
          expectedContent sampleWorld "http://host/a.ipsw" "data.bin") :=
  downloadFile_sink_atomic sampleWorld "http://host/a.ipsw" "data.bin"

/-- Witness for C5: the step trace of a concrete run has no repetition. -/
theorem downloadFile_error_propagation_witness :
    (DownloadFile sampleWorld "http://host/a.ipsw"
      "Manifest.plist").trace.Nodup :=
  (downloadFile_error_propagation sampleWorld "http://host/a.ipsw"
    "Manifest.plist").2.2.2.2.2

/-- Witness for C6: the stored name matches itself and a lookup differing
only in letter case does not open any entry. -/
theorem downloadFile_case_sensitive_lookup_witness :
    (Step.openEntry "Manifest.plist" ∈
        (DownloadFile sampleWorld "http://host/a.ipsw"
          "Manifest.plist").trace ↔
      ∃ f ∈ sampleFiles, f.name = "Manifest.plist") ∧
      Step.openEntry "manifest.plist" ∉
        (DownloadFile sampleWorld "http://host/a.ipsw"
          "manifest.plist").trace :=
  ⟨downloadFile_case_sensitive_lookup sampleWorld "http://host/a.ipsw"
     "Manifest.plist" sampleFiles rfl rfl rfl, by decide⟩

/-- Witness for C7 at an LZMA-compressed entry. -/
theorem bufferedDownload_unsupported_method_witness :
    lzmaFile.method ≠ methodStore ∧ lzmaFile.method ≠ methodDeflate ∧
      bufferedDownload idInflate none lzmaFile =
        ([], some (.unsupportedCompression 14)) :=
  ⟨by decide, by decide,
   bufferedDownload_unsupported_method idInflate none lzmaFile
     (by decide) (by decide)⟩

/-- Witness for C8 at a concrete archive and entry. -/
theorem downloadFile_transfer_bound_witness :
    transferred (DownloadFile sampleWorld "http://host/a.ipsw" "data.bin") ≤
      65557 + sampleWorld.cdSize + sampleWorld.localHeaderSize + 2 :=
  downloadFile_transfer_bound sampleWorld "http://host/a.ipsw" "data.bin"
    sampleFiles ⟨"data.bin", methodDeflate, 200, [1, 2]⟩ rfl rfl rfl (by decide)

/-- Witness for C9 at an archive with two entries named "dup.txt". -/
theorem downloadFile_first_match_witness :
    DownloadFile { sampleWorld with directory := .ok [dupA, dupB] }
        "http://host/a.ipsw" "dup.txt" =
      DownloadFile { sampleWorld with directory := .ok [dupA] }
        "http://host/a.ipsw" "dup.txt" :=
  downloadFile_first_match sampleWorld "http://host/a.ipsw" "dup.txt"
    [] [dupB] dupA rfl (by decide)

/-- Witness for C10 at a resource string that fails URL parsing. -/
theorem downloadFile_url_parse_error_witness :
    badURLWorld.urlParse "http://bad url" =
        some (.urlParse "http://bad url") ∧
      (DownloadFile badURLWorld "http://bad url" "Manifest.plist").ret =
        some (.urlParse "http://bad url") ∧
      (DownloadFile badURLWorld "http://bad url" "Manifest.plist").reads = [] :=
  ⟨rfl,
   (downloadFile_url_parse_error badURLWorld "http://bad url" "Manifest.plist"
      (.urlParse "http://bad url") rfl).1,
   (downloadFile_url_parse_error badURLWorld "http://bad url" "Manifest.plist"
      (.urlParse "http://bad url") rfl).2.2.1⟩

end GoIpsw
